import Mathlib

/-!
Shallow embedding of the example notebooks of this repository: the MySQL
loading notebook, the Elasticsearch sentiment-indexing notebook
(examples/elastic-search/load-into-es.ipynb), and the SEC sentiment-analysis
notebook.  External collaborators (the document partitioner, TextBlob, the
Elasticsearch client, the requests library, the SEC pipelines API, the
Hugging Face training framework) are modelled as opaque function parameters;
the notebooks' own glue code (loops, field assignments, comparisons, sorts)
is translated directly from the notebook cells.
-/

namespace UnstructuredNotebooks

/-- A document element as produced by the external partitioning library:
text content, a category tag, and metadata such as the source filename. -/
structure Element where
  elementId : String
  text : String
  category : String
  filename : String
deriving DecidableEq

/-- The dictionary form of an element flowing through the Elasticsearch
notebook: the fields printed by `to_dict` / `convert_to_dict`, plus the three
analysis fields (`polarity`, `subjectivity`, `sentiment`) that the indexing
loop adds (absent, i.e. `none`, until that loop runs). -/
structure ElementDoc where
  element_id : String
  text : String
  etype : String
  filename : String
  polarity : Option Rat
  subjectivity : Option Rat
  sentiment : Option String
deriving DecidableEq

/-- Round-half-even of `q * 10^4` expressed purely over integers, embedding
the Python builtin `round(x, 4)` used in the indexing loop (Python rounds
half to even); exact rationals stand in for Python floats. -/
def roundHalfEven4 (q : Rat) : Int :=
  let n := q.num * 10000
  let d := (q.den : Int)
  let f := n.fdiv d
  let r := n - f * d
  if 2 * r < d then f
  else if d < 2 * r then f + 1
  else if f % 2 = 0 then f else f + 1

/-- The Python expression `round(x, 4)` over exact rationals. -/
def roundTo4 (q : Rat) : Rat := mkRat (roundHalfEven4 q) 10000

/-- The discrete sentiment label the notebook derives from the rounded
polarity: the `if element["polarity"] < 0 / elif == 0 / else` chain of the
indexing loop. -/
def sentimentLabel (p : Rat) : String :=
  if p < 0 then "negative" else if p = 0 then "neutral" else "positive"

/-- Body of the Elasticsearch indexing loop, minus the external calls: given
the raw TextBlob polarity and subjectivity of the element's text, it stores
their rounded values and the notebook-computed sentiment label on the
element dictionary.  Translated from the cell
`element["polarity"] = round(element_blob.sentiment.polarity, 4); ...`. -/
def annotateElement (blobPolarity blobSubjectivity : Rat) (e : ElementDoc) : ElementDoc :=
  let p := roundTo4 blobPolarity
  let s := roundTo4 blobSubjectivity
  { e with
    polarity := some p
    subjectivity := some s
    sentiment := some (if p < 0 then "negative" else if p = 0 then "neutral" else "positive") }

/-- Body of the whitespace-cleaning loop of the Elasticsearch notebook:
`element_dict["text"] = clean_extra_whitespace(element_dict["text"])`, with
the cleaner itself (library code) abstracted as a function parameter. -/
def cleanElement (clean : String → String) (e : ElementDoc) : ElementDoc :=
  { e with text := clean e.text }

/-- One element's full trip through the Elasticsearch notebook's two
per-element loops: the cleaning loop, then the annotating loop. -/
def esPipelineElement (clean : String → String) (blobPolarity blobSubjectivity : Rat)
    (e : ElementDoc) : ElementDoc :=
  annotateElement blobPolarity blobSubjectivity (cleanElement clean e)

/-- A call made to a downstream storage client by a loading cell. -/
inductive ClientCall
  | esIndex (indexName : String) (doc : ElementDoc)
  | toSql (table : String) (rowCount : Nat)
deriving DecidableEq

/-- The load loop of the Elasticsearch notebook: for each element dictionary
it computes TextBlob scores (abstracted as `blob`), annotates the dictionary,
and issues one `es_client.index` call carrying the annotated dictionary.
Returns the annotated dictionaries and the list of client calls issued. -/
def esLoadLoop (blob : String → Rat × Rat) :
    List ElementDoc → List ElementDoc × List ClientCall
  | [] => ([], [])
  | e :: es =>
    let d := annotateElement (blob e.text).1 (blob e.text).2 e
    let rest := esLoadLoop blob es
    (d :: rest.1, ClientCall.esIndex "search-unstructured-elements" d :: rest.2)

/-- The load step of the MySQL notebook:
`elements_df.to_sql(name=table_name, con=engine, if_exists="replace", index=False)`,
a single client call carrying the whole dataframe. -/
def mysqlLoadCalls (rowCount : Nat) : List ClientCall :=
  [ClientCall.toSql "processed_documents" rowCount]

/-- A hit returned by the Elasticsearch query cells, as used by the two
`sorted(...)` calls: each carries the numeric polarity and subjectivity
stored at indexing time. -/
structure Hit where
  text : String
  sentiment : String
  polarity : Rat
  subjectivity : Rat
deriving DecidableEq

/-- Stable insertion of one hit into a list: `x` goes in front of the first
element `y` with `le x y`, so elements that compare equal keep their
original relative order. -/
def insertStable (le : Hit → Hit → Bool) (x : Hit) : List Hit → List Hit
  | [] => [x]
  | y :: ys => if le x y then x :: y :: ys else y :: insertStable le x ys

/-- A stable sort over hits.  Python's builtin `sorted` is stable, and the
result of a stable sort under a total preorder is unique, so this models
`sorted(response, key=..., reverse=True)` with `le a b` meaning that `a`
may come before `b` in the output. -/
def pySorted (le : Hit → Hit → Bool) : List Hit → List Hit
  | [] => []
  | x :: xs => insertStable le x (pySorted le xs)

/-- Comparator of `sorted(..., key=lambda d: d["polarity"], reverse=True)`. -/
def polarityDescLe (a b : Hit) : Bool := decide (b.polarity ≤ a.polarity)

/-- Comparator of `sorted(..., key=lambda d: d["subjectivity"], reverse=True)`. -/
def subjectivityDescLe (a b : Hit) : Bool := decide (b.subjectivity ≤ a.subjectivity)

/-- The two successive sorts of the Elasticsearch notebook:
`sorted_elements = sorted(response, key=lambda d: d["polarity"], reverse=True)`
then
`sorted_elements = sorted(sorted_elements, key=lambda d: d["subjectivity"], reverse=True)`. -/
def sortedElements (response : List Hit) : List Hit :=
  pySorted subjectivityDescLe (pySorted polarityDescLe response)

/-- The order the double sort is claimed to realise: subjectivity descending
first, and polarity descending among hits of equal subjectivity. -/
def subjDominates (a b : Hit) : Prop :=
  b.subjectivity ≤ a.subjectivity ∧
    (a.subjectivity = b.subjectivity → b.polarity ≤ a.polarity)

/-- Response of the hosted SEC pipelines API as the risk-factors loop sees
it: an HTTP status and the extracted `RISK_FACTORS` payload. -/
structure SecResponse where
  status : Nat
  riskFactorsJson : String
deriving DecidableEq

/-- An error surfaced by the requests library during the risk-factors loop:
either the `requests.post` call itself fails, or `raise_for_status` raises
for an HTTP error status. -/
inductive ApiError
  | network (msg : String)
  | httpStatus (code : Nat)
deriving DecidableEq

/-- The requests-library method `response.raise_for_status()`: raises an
`HTTPError` exactly when the status code is 400 or above. -/
def raiseForStatus (r : SecResponse) : Except ApiError Unit :=
  if 400 ≤ r.status then .error (.httpStatus r.status) else .ok ()

/-- The risk-factors extraction loop of the SEC notebook: for each ticker it
posts the saved filing to the hosted API (abstracted as `post`), calls
`raise_for_status`, and records the `RISK_FACTORS` payload.  The loop body
contains no try/except: any error short-circuits the whole loop. -/
def riskFactorsLoop (post : String → Except ApiError SecResponse) :
    List String → Except ApiError (List (String × String))
  | [] => .ok []
  | t :: ts =>
    match post t with
    | .error e => .error e
    | .ok r =>
      match raiseForStatus r with
      | .error e => .error e
      | .ok _ =>
        match riskFactorsLoop post ts with
        | .error e => .error e
        | .ok rest => .ok ((t, r.riskFactorsJson) :: rest)

/-- One step of the SEC notebook's execution, for the temporal ordering of
its stages. -/
inductive SecEvent
  | fetchForm (ticker : String)
  | extractSection (ticker : String)
  | annotateText (idx : Nat)
  | trainModel
deriving DecidableEq

/-- The stage an event belongs to: 0 fetch, 1 extract, 2 pre-annotate,
3 train. -/
def phase : SecEvent → Nat
  | .fetchForm _ => 0
  | .extractSection _ => 1
  | .annotateText _ => 2
  | .trainModel => 3

/-- The event trace of one run of the SEC notebook's cells, in cell order:
the `get_form_by_ticker` fetch loop over all tickers, then the risk-factors
extraction loop over all tickers, then the sentiment pre-annotation loop
over all extracted elements, then the single `trainer.train()` call.
The external calls are abstracted as `get` (HTTP fetch), `extract` (hosted
API, one list of element texts per filing) and the per-element sentiment
model; each loop iteration emits one event. -/
def secRunTrace (get : String → String) (extract : String → List String)
    (tickers : List String) : List SecEvent :=
  let forms := tickers.map fun t => (t, get t)
  let riskSections := forms.map fun p => (p.1, extract p.2)
  let elements := (riskSections.map Prod.snd).flatten
  tickers.map SecEvent.fetchForm
    ++ tickers.map SecEvent.extractSection
    ++ (List.range elements.length).map SecEvent.annotateText
    ++ [SecEvent.trainModel]

/-- One item of the labeled training data exported from LabelStudio, as the
SEC notebook reads it from `sec-sentiment-analysis-labeled.json`. -/
structure TrainItem where
  text : String
  sentiment : String
deriving DecidableEq

/-- The `"text"` column of `Dataset.from_dict`:
`[item["text"] for item in training_data]`. -/
def trainingTexts (data : List TrainItem) : List String := data.map TrainItem.text

/-- The `"label"` column of `Dataset.from_dict`:
`[0 if item["sentiment"] == "Negative" else 1 for item in training_data]`. -/
def trainingLabels (data : List TrainItem) : List Nat :=
  data.map fun item => if item.sentiment = "Negative" then 0 else 1

/-- Modelled from the spec: the element-to-record flattening shared by the
staging bricks.  The staging functions live in `unstructured/staging`, which
is not under src/; the spec describes them as thin formatting that flattens
elements into rows/dicts carrying the element's text, type and metadata. -/
def elementToRecord (e : Element) : ElementDoc :=
  { element_id := e.elementId
    text := e.text
    etype := e.category
    filename := e.filename
    polarity := none
    subjectivity := none
    sentiment := none }

/-- Modelled from the spec: `convert_to_dict` from `unstructured.staging.base`
(not under src/) converts a list of elements to a list of dictionaries, one
per element, in order. -/
def convert_to_dict (elements : List Element) : List ElementDoc :=
  elements.map elementToRecord

/-- Modelled from the spec: `convert_to_dataframe` from
`unstructured.staging.base` (not under src/) converts a list of elements to
a dataframe with one row per element, in order, with text and type columns
alongside document metadata. -/
def convert_to_dataframe (elements : List Element) : List ElementDoc :=
  elements.map elementToRecord

/-- Modelled from the spec: `stage_for_label_studio` from
`unstructured.staging.label_studio` (not under src/) formats one LabelStudio
task per element, pairing the element's text with its pre-annotation. -/
def stage_for_label_studio (elements : List Element) (annotations : List String) :
    List (String × String) :=
  List.zipWith (fun e a => (e.text, a)) elements annotations

/-- Modelled from the spec: the chunking core of `stage_for_transformers`.
Consecutive element texts are merged into the current snippet while the
running token count (`tok` per text) still fits the attention window;
otherwise the snippet is emitted and a new one starts. -/
def chunkTexts (tok : String → Nat) (window : Nat) (cur : String) (size : Nat) :
    List String → List String
  | [] => [cur]
  | t :: ts =>
    if size + tok t ≤ window then
      chunkTexts tok window (cur ++ "\n\n" ++ t) (size + tok t) ts
    else
      cur :: chunkTexts tok window t (tok t) ts

/-- Modelled from the spec: `stage_for_transformers` from
`unstructured.staging.huggingface` (not under src/) chunks element text
based on the size of the model's attention window; the SEC notebook feeds
it ten elements and receives two text snippets back. -/
def stage_for_transformers (tok : String → Nat) (window : Nat) :
    List Element → List String
  | [] => []
  | e :: es => chunkTexts tok window e.text (tok e.text) (es.map Element.text)

/-- A concrete element dictionary as it leaves `convert_to_dict` in the
Elasticsearch notebook (no analysis fields yet). -/
def sampleDoc : ElementDoc :=
  { element_id := "fd853487ab296eece56a863ed64cafdb"
    text := "Russian Offensive Campaign"
    etype := "NarrativeText"
    filename := "example-with-scripts.html"
    polarity := none
    subjectivity := none
    sentiment := none }

/-- A concrete partitioner element used in counterexamples and witnesses. -/
def sampleElemA : Element :=
  { elementId := "id-a", text := "Roses are red", category := "ListItem",
    filename := "fake-email.eml" }

/-- A second concrete partitioner element. -/
def sampleElemB : Element :=
  { elementId := "id-b", text := "Violets are blue", category := "ListItem",
    filename := "fake-email.eml" }

/-- A third concrete partitioner element. -/
def sampleElemC : Element :=
  { elementId := "id-c", text := "Important points:", category := "Title",
    filename := "fake-email.eml" }

/-- A concrete stand-in for `requests.post` against the SEC pipelines API:
succeeds on ticker `ehc`, fails at the network level on `mrk`, and returns
an HTTP 500 on anything else. -/
def samplePost : String → Except ApiError SecResponse := fun t =>
  if t = "ehc" then .ok { status := 200, riskFactorsJson := "risk factors body" }
  else if t = "mrk" then .error (.network "connection reset")
  else .ok { status := 500, riskFactorsJson := "" }

/-! Helper lemmas shared by several claims. -/

theorem string_labels_distinct :
    ("negative" : String) ≠ "neutral" ∧ ("negative" : String) ≠ "positive" ∧
      ("neutral" : String) ≠ "positive" := by
  refine ⟨?_, ?_, ?_⟩ <;> decide

theorem esLoadLoop_calls_length (blob : String → Rat × Rat) (docs : List ElementDoc) :
    ((esLoadLoop blob docs).2).length = docs.length := by
  induction docs with
  | nil => rfl
  | cons e es ih => simp [esLoadLoop, ih]

/-- C2: every document indexed by the load loop carries a sentiment field
equal to "negative" exactly when the stored (rounded) polarity is negative,
"neutral" exactly when it is zero, "positive" exactly when it is positive,
and the sentiment is always one of those three values. -/
theorem indexed_sentiment_iff_polarity_sign (bp bs : Rat) (e : ElementDoc) :
    ∃ q : Rat, (annotateElement bp bs e).polarity = some q ∧
      ((annotateElement bp bs e).sentiment = some "negative" ↔ q < 0) ∧
      ((annotateElement bp bs e).sentiment = some "neutral" ↔ q = 0) ∧
      ((annotateElement bp bs e).sentiment = some "positive" ↔ 0 < q) ∧
      ((annotateElement bp bs e).sentiment = some "negative" ∨
        (annotateElement bp bs e).sentiment = some "neutral" ∨
        (annotateElement bp bs e).sentiment = some "positive") := by
  obtain ⟨h1, h2, h3⟩ := string_labels_distinct
  refine ⟨roundTo4 bp, rfl, ?_⟩
  rcases lt_trichotomy (roundTo4 bp) 0 with h | h | h
  · simp [annotateElement, h, ne_of_lt h, lt_asymm h, h1, h2]
  · simp [annotateElement, h, h1.symm, h3]
  · simp [annotateElement, h, lt_asymm h, (ne_of_lt h).symm, h2.symm, h3.symm]

/-- C1 counterexample: the sentiment value stored by the indexing loop is a
derived value computed by the notebook's own three-way comparison, not a
pass-through of an input field or of an external library result: on the same
input record it is "negative" for polarity -1 and "positive" for polarity 1,
while the input record carries no sentiment at all. -/
theorem annotate_writes_derived_sentiment_cex :
    (annotateElement (-1) 0 sampleDoc).sentiment = some "negative" ∧
    (annotateElement 1 0 sampleDoc).sentiment = some "positive" ∧
    sampleDoc.sentiment = none ∧
    (annotateElement (-1) 0 sampleDoc).sentiment ≠ sampleDoc.sentiment := by
  refine ⟨?_, ?_, rfl, ?_⟩ <;> decide

/-- C1 amended: the notebooks delegate parsing, loading, indexing,
fine-tuning and sentiment scoring to external libraries, but the
Elasticsearch notebook's own code derives the stored sentiment label from
the rounded polarity: every other stored field of an annotated record is
either copied from the input record or is the rounded external TextBlob
score, and the sentiment field is the notebook-computed label. -/
theorem annotate_fields_provenance (bp bs : Rat) (e : ElementDoc) :
    (annotateElement bp bs e).element_id = e.element_id ∧
    (annotateElement bp bs e).text = e.text ∧
    (annotateElement bp bs e).etype = e.etype ∧
    (annotateElement bp bs e).filename = e.filename ∧
    (annotateElement bp bs e).polarity = some (roundTo4 bp) ∧
    (annotateElement bp bs e).subjectivity = some (roundTo4 bs) ∧
    (annotateElement bp bs e).sentiment = some (sentimentLabel (roundTo4 bp)) :=
  ⟨rfl, rfl, rfl, rfl, rfl, rfl, rfl⟩

/-- C3 counterexample: element records do not pass through the Elasticsearch
notebook unchanged; the indexing loop modifies the record before loading it
(at this concrete input it fills the sentiment, polarity and subjectivity
fields). -/
theorem annotate_modifies_record_cex :
    annotateElement 1 (mkRat 1 2) sampleDoc ≠ sampleDoc := by
  decide

/-- C3 amended: the MySQL notebook passes elements through staging and
loading unchanged, but the Elasticsearch notebook modifies each record
before indexing: its cleaning loop rewrites the text field and its indexing
loop fills the three analysis fields, while the partitioner-owned identity
fields are preserved. -/
theorem es_pipeline_modifies_only_analysis_fields (clean : String → String)
    (bp bs : Rat) (e : ElementDoc) :
    (esPipelineElement clean bp bs e).element_id = e.element_id ∧
    (esPipelineElement clean bp bs e).etype = e.etype ∧
    (esPipelineElement clean bp bs e).filename = e.filename ∧
    (esPipelineElement clean bp bs e).text = clean e.text ∧
    (esPipelineElement clean bp bs e).polarity = some (roundTo4 bp) ∧
    (esPipelineElement clean bp bs e).subjectivity = some (roundTo4 bs) ∧
    ((esPipelineElement clean bp bs e).sentiment).isSome = true :=
  ⟨rfl, rfl, rfl, rfl, rfl, rfl, rfl⟩

/-- C6 counterexample: the Elasticsearch load is not a single bulk client
call covering all rows; on a two-element input the load loop issues two
separate index calls. -/
theorem es_load_not_single_call_cex :
    ((esLoadLoop (fun _ => (0, 0)) [sampleDoc, sampleDoc]).2).length = 2 ∧
    ((esLoadLoop (fun _ => (0, 0)) [sampleDoc, sampleDoc]).2).length ≠ 1 := by
  refine ⟨?_, ?_⟩ <;> decide

/-- C6 amended: the relational-table load is one bulk `to_sql` call for the
whole row set, while the search-index load issues exactly one
`es_client.index` call per element. -/
theorem load_call_counts (blob : String → Rat × Rat) (docs : List ElementDoc)
    (rows : Nat) :
    (mysqlLoadCalls rows).length = 1 ∧
    ((esLoadLoop blob docs).2).length = docs.length :=
  ⟨rfl, esLoadLoop_calls_length blob docs⟩

/-- C9: in the training-dataset construction, each item's derived label is 0
exactly when its sentiment string equals "Negative" verbatim and is always 0
or 1; the lower-case variant "negative" maps to 1. -/
theorem training_labels_negative_rule (data : List TrainItem) :
    List.Forall₂
      (fun item l => (l = 0 ↔ item.sentiment = "Negative") ∧ (l = 0 ∨ l = 1))
      data (trainingLabels data) ∧
    trainingLabels [{ text := "case variant", sentiment := "negative" }] = [1] := by
  constructor
  · induction data with
    | nil => exact List.Forall₂.nil
    | cons item rest ih =>
      refine List.Forall₂.cons ?_ ih
      by_cases h : item.sentiment = "Negative"
      · simp [trainingLabels, h]
      · simp [trainingLabels, h]
  · decide

theorem map_text_elementToRecord (es : List Element) :
    (es.map elementToRecord).map ElementDoc.text = es.map Element.text := by
  induction es with
  | nil => rfl
  | cons e es ih =>
    simp only [List.map]
    rw [ih]
    rfl

theorem map_fst_stage_for_label_studio (es : List Element) (annots : List String)
    (h : annots.length = es.length) :
    (stage_for_label_studio es annots).map Prod.fst = es.map Element.text := by
  induction es generalizing annots with
  | nil =>
    cases annots with
    | nil => rfl
    | cons a as => simp at h
  | cons e es ih =>
    cases annots with
    | nil => simp at h
    | cons a as =>
      simp only [stage_for_label_studio, List.zipWith, List.map]
      rw [show (List.zipWith (fun e a => (e.text, a)) es as).map Prod.fst
            = es.map Element.text from ih as (by simpa using h)]

theorem chunkTexts_length_le (tok : String → Nat) (w : Nat) (cur : String)
    (size : Nat) (ts : List String) :
    (chunkTexts tok w cur size ts).length ≤ ts.length + 1 := by
  induction ts generalizing cur size with
  | nil => simp [chunkTexts]
  | cons t ts ih =>
    simp only [chunkTexts]
    split
    · simp only [List.length_cons]
      exact le_trans (ih _ _) (by omega)
    · have h := ih t (tok t)
      simp only [List.length_cons]
      omega

/-- C7 counterexample: `stage_for_transformers` does not produce one output
record per input element: three short elements whose texts all fit into one
attention window come back as a single text snippet. -/
theorem stage_for_transformers_merges_cex :
    (stage_for_transformers (fun _ => 2) 10 [sampleElemA, sampleElemB, sampleElemC]).length = 1 ∧
    ([sampleElemA, sampleElemB, sampleElemC] : List Element).length = 3 := by
  refine ⟨?_, ?_⟩ <;> rfl

/-- C7 amended: `convert_to_dataframe`, `convert_to_dict` and
`stage_for_label_studio` each produce exactly one output record per input
element, in order, with each record's text equal to the corresponding
element's text; `stage_for_transformers` instead chunks for the attention
window and can merge several consecutive elements into one snippet,
producing at most one snippet per element. -/
theorem staging_one_record_per_element (es : List Element) (annots : List String)
    (tok : String → Nat) (w : Nat) :
    (convert_to_dataframe es).map ElementDoc.text = es.map Element.text ∧
    (convert_to_dict es).map ElementDoc.text = es.map Element.text ∧
    (annots.length = es.length →
      (stage_for_label_studio es annots).map Prod.fst = es.map Element.text) ∧
    (stage_for_transformers tok w es).length ≤ es.length := by
  refine ⟨map_text_elementToRecord es, map_text_elementToRecord es,
    fun h => map_fst_stage_for_label_studio es annots h, ?_⟩
  cases es with
  | nil => simp [stage_for_transformers]
  | cons e es =>
    have h := chunkTexts_length_le tok w e.text (tok e.text) (es.map Element.text)
    simp only [stage_for_transformers, List.length_map] at h ⊢
    simpa using h

/-- C7 witness: the amended staging theorem applied at a concrete
one-element input with a matching one-annotation list. -/
theorem staging_one_record_per_element_witness :
    (["Positive"] : List String).length = ([sampleElemA] : List Element).length ∧
    (stage_for_label_studio [sampleElemA] ["Positive"]).map Prod.fst =
      ([sampleElemA] : List Element).map Element.text :=
  ⟨rfl, (staging_one_record_per_element [sampleElemA] ["Positive"] (fun _ => 1) 5).2.2.1 rfl⟩

/-- C4: the risk-factors extraction loop contains no error handling of its
own: when every earlier API call succeeded with a non-error status, an error
raised by the requests library for the current ticker, either from the post
call itself or from `raise_for_status` on an HTTP error status, becomes the
result of the whole loop unchanged. -/
theorem riskFactors_errors_propagate_unchanged
    (post : String → Except ApiError SecResponse) (pre : List String) (t : String)
    (ts : List String) (e : ApiError)
    (hpre : ∀ t' ∈ pre, ∃ r, post t' = .ok r ∧ r.status < 400) :
    (post t = .error e → riskFactorsLoop post (pre ++ t :: ts) = .error e) ∧
    (∀ r, post t = .ok r → 400 ≤ r.status →
      riskFactorsLoop post (pre ++ t :: ts) = .error (.httpStatus r.status)) := by
  induction pre with
  | nil =>
    constructor
    · intro h
      simp [riskFactorsLoop, h]
    · intro r hr hstatus
      simp [riskFactorsLoop, hr, raiseForStatus, hstatus]
  | cons p ps ih =>
    obtain ⟨r0, hr0, hlt⟩ := hpre p (List.mem_cons_self p ps)
    have hrest := ih fun t' ht' => hpre t' (List.mem_cons_of_mem p ht')
    constructor
    · intro h
      simp only [List.cons_append, riskFactorsLoop, hr0, raiseForStatus,
        if_neg (by omega : ¬ 400 ≤ r0.status), List.append_eq]
      rw [hrest.1 h]
    · intro r hr hstatus
      simp only [List.cons_append, riskFactorsLoop, hr0, raiseForStatus,
        if_neg (by omega : ¬ 400 ≤ r0.status), List.append_eq]
      rw [hrest.2 r hr hstatus]

/-- C4 witness: with a concrete post function whose first call succeeds with
status 200 and whose second call fails at the network level, the loop over
three tickers returns that same network error. -/
theorem riskFactors_errors_propagate_unchanged_witness :
    (∀ t' ∈ ["ehc"], ∃ r, samplePost t' = .ok r ∧ r.status < 400) ∧
    riskFactorsLoop samplePost (["ehc"] ++ "mrk" :: ["nke"]) =
      .error (.network "connection reset") := by
  have hpre : ∀ t' ∈ ["ehc"], ∃ r, samplePost t' = .ok r ∧ r.status < 400 := by
    intro t' ht'
    simp only [List.mem_singleton] at ht'
    subst ht'
    exact ⟨{ status := 200, riskFactorsJson := "risk factors body" }, rfl, by decide⟩
  exact ⟨hpre, (riskFactors_errors_propagate_unchanged samplePost ["ehc"] "mrk" ["nke"]
    (.network "connection reset") hpre).1 rfl⟩

theorem pairwise_phase_const (l : List SecEvent) (k : Nat)
    (h : ∀ a ∈ l, phase a = k) :
    l.Pairwise fun a b => phase a ≤ phase b := by
  induction l with
  | nil => exact List.Pairwise.nil
  | cons x xs ih =>
    refine List.Pairwise.cons ?_ (ih fun a ha => h a (List.mem_cons_of_mem x ha))
    intro b hb
    rw [h x (List.mem_cons_self x xs), h b (List.mem_cons_of_mem x hb)]

theorem pairwise_phase_blocks (ts us : List String) (n : Nat) :
    (ts.map SecEvent.fetchForm ++ us.map SecEvent.extractSection
        ++ (List.range n).map SecEvent.annotateText
        ++ [SecEvent.trainModel]).Pairwise fun a b => phase a ≤ phase b := by
  have hA : ∀ a ∈ ts.map SecEvent.fetchForm, phase a = 0 := by
    intro a ha
    obtain ⟨t, _, rfl⟩ := List.mem_map.mp ha
    rfl
  have hB : ∀ a ∈ us.map SecEvent.extractSection, phase a = 1 := by
    intro a ha
    obtain ⟨t, _, rfl⟩ := List.mem_map.mp ha
    rfl
  have hC : ∀ a ∈ (List.range n).map SecEvent.annotateText, phase a = 2 := by
    intro a ha
    obtain ⟨i, _, rfl⟩ := List.mem_map.mp ha
    rfl
  have hD : ∀ a ∈ [SecEvent.trainModel], phase a = 3 := by
    intro a ha
    simp only [List.mem_singleton] at ha
    subst ha
    rfl
  rw [List.pairwise_append]
  refine ⟨?_, pairwise_phase_const _ 3 hD, ?_⟩
  · rw [List.pairwise_append]
    refine ⟨?_, pairwise_phase_const _ 2 hC, ?_⟩
    · rw [List.pairwise_append]
      refine ⟨pairwise_phase_const _ 0 hA, pairwise_phase_const _ 1 hB, ?_⟩
      intro a ha b hb
      rw [hA a ha, hB b hb]
      omega
    · intro a ha b hb
      rcases List.mem_append.mp ha with ha' | ha'
      · rw [hA a ha', hC b hb]
        omega
      · rw [hB a ha', hC b hb]
        omega
  · intro a ha b hb
    rw [hD b hb]
    cases a <;> simp [phase]

/-- C5: in the SEC notebook's event trace, stages occur in the fixed order
fetch, extract, pre-annotate, train: the phase of every event is less than
or equal to the phase of every later event, so no later stage's iteration
precedes an earlier stage's iteration. -/
theorem sec_stages_phase_ordered (get : String → String)
    (extract : String → List String) (tickers : List String) :
    (secRunTrace get extract tickers).Pairwise fun a b => phase a ≤ phase b := by
  unfold secRunTrace
  exact pairwise_phase_blocks tickers tickers _

theorem mem_insertStable (le : Hit → Hit → Bool) (x z : Hit) (l : List Hit) :
    z ∈ insertStable le x l ↔ z = x ∨ z ∈ l := by
  induction l with
  | nil => simp [insertStable]
  | cons y ys ih =>
    simp only [insertStable]
    split
    · simp [List.mem_cons]
    · simp only [List.mem_cons, ih]
      tauto

theorem mem_pySorted (le : Hit → Hit → Bool) (z : Hit) (l : List Hit) :
    z ∈ pySorted le l ↔ z ∈ l := by
  induction l with
  | nil => simp [pySorted]
  | cons x xs ih =>
    simp [pySorted, mem_insertStable, ih, List.mem_cons]

theorem insertStable_pairwise (le : Hit → Hit → Bool)
    (htrans : ∀ a b c, le a b = true → le b c = true → le a c = true)
    (htot : ∀ a b, le a b = true ∨ le b a = true)
    (x : Hit) (l : List Hit) (h : l.Pairwise fun a b => le a b = true) :
    (insertStable le x l).Pairwise fun a b => le a b = true := by
  induction l with
  | nil => simp [insertStable]
  | cons y ys ih =>
    rcases h with _ | ⟨hy, hys⟩
    simp only [insertStable]
    split
    · rename_i hxy
      refine List.Pairwise.cons ?_ (List.Pairwise.cons hy hys)
      intro b hb
      rcases List.mem_cons.mp hb with rfl | hb'
      · exact hxy
      · exact htrans x y b hxy (hy b hb')
    · rename_i hxy
      refine List.Pairwise.cons ?_ (ih hys)
      intro b hb
      rcases (mem_insertStable le x b ys).mp hb with hbx | hb'
      · have hyx : le y x = true := by
          rcases htot x y with h' | h'
          · exact absurd h' hxy
          · exact h'
        rw [hbx]
        exact hyx
      · exact hy b hb'

theorem pySorted_pairwise (le : Hit → Hit → Bool)
    (htrans : ∀ a b c, le a b = true → le b c = true → le a c = true)
    (htot : ∀ a b, le a b = true ∨ le b a = true)
    (l : List Hit) :
    (pySorted le l).Pairwise fun a b => le a b = true := by
  induction l with
  | nil => simp [pySorted]
  | cons x xs ih => exact insertStable_pairwise le htrans htot x _ ih

theorem insertStable_tie (x : Hit) (m : List Hit)
    (hm : m.Pairwise fun a b =>
      a.subjectivity = b.subjectivity → b.polarity ≤ a.polarity)
    (hx : ∀ z ∈ m, z.polarity ≤ x.polarity) :
    (insertStable subjectivityDescLe x m).Pairwise
      fun a b => a.subjectivity = b.subjectivity → b.polarity ≤ a.polarity := by
  induction m with
  | nil => simp [insertStable]
  | cons y ys ih =>
    rcases hm with _ | ⟨hy, hys⟩
    simp only [insertStable]
    split
    · refine List.Pairwise.cons ?_ (List.Pairwise.cons hy hys)
      intro b hb _
      exact hx b hb
    · rename_i hxy
      refine List.Pairwise.cons ?_
        (ih hys fun z hz => hx z (List.mem_cons_of_mem y hz))
      intro b hb
      rcases (mem_insertStable _ x b ys).mp hb with rfl | hb'
      · intro hsubj
        exact absurd hsubj.le (by simpa [subjectivityDescLe] using hxy)
      · exact hy b hb'

theorem pySorted_tie (l : List Hit)
    (hl : l.Pairwise fun a b => b.polarity ≤ a.polarity) :
    (pySorted subjectivityDescLe l).Pairwise
      fun a b => a.subjectivity = b.subjectivity → b.polarity ≤ a.polarity := by
  induction l with
  | nil => simp [pySorted]
  | cons x xs ih =>
    rcases hl with _ | ⟨hx, hxs⟩
    exact insertStable_tie x _ (ih hxs)
      fun z hz => hx z ((mem_pySorted _ z xs).mp hz)

/-- C8: the two successive stable sorts order the hits primarily by
subjectivity descending, and among hits of equal subjectivity by polarity
descending: the second (subjectivity) sort dominates the first (polarity)
sort, which survives only on subjectivity ties. -/
theorem double_sort_subjectivity_then_polarity (response : List Hit) :
    (sortedElements response).Pairwise subjDominates := by
  have hpolTrans : ∀ a b c : Hit, polarityDescLe a b = true →
      polarityDescLe b c = true → polarityDescLe a c = true := by
    intro a b c hab hbc
    simp only [polarityDescLe, decide_eq_true_eq] at *
    exact le_trans hbc hab
  have hpolTot : ∀ a b : Hit, polarityDescLe a b = true ∨ polarityDescLe b a = true := by
    intro a b
    simp only [polarityDescLe, decide_eq_true_eq]
    exact le_total b.polarity a.polarity
  have hsubjTrans : ∀ a b c : Hit, subjectivityDescLe a b = true →
      subjectivityDescLe b c = true → subjectivityDescLe a c = true := by
    intro a b c hab hbc
    simp only [subjectivityDescLe, decide_eq_true_eq] at *
    exact le_trans hbc hab
  have hsubjTot : ∀ a b : Hit,
      subjectivityDescLe a b = true ∨ subjectivityDescLe b a = true := by
    intro a b
    simp only [subjectivityDescLe, decide_eq_true_eq]
    exact le_total b.subjectivity a.subjectivity
  have h1 : (pySorted polarityDescLe response).Pairwise
      fun a b => b.polarity ≤ a.polarity :=
    (pySorted_pairwise polarityDescLe hpolTrans hpolTot response).imp
      fun h => by simpa [polarityDescLe, decide_eq_true_eq] using h
  have h2 : (sortedElements response).Pairwise
      fun a b => b.subjectivity ≤ a.subjectivity :=
    (pySorted_pairwise subjectivityDescLe hsubjTrans hsubjTot
      (pySorted polarityDescLe response)).imp
      fun h => by simpa [subjectivityDescLe, decide_eq_true_eq] using h
  have h3 : (sortedElements response).Pairwise
      fun a b => a.subjectivity = b.subjectivity → b.polarity ≤ a.polarity :=
    pySorted_tie _ h1
  exact (h2.and h3).imp fun h => ⟨h.1, h.2⟩

end UnstructuredNotebooks
